import Mathlib

/-!
Shallow embedding of a small CI/CD demo repository.

`app.py` exposes `fetch_greeting(url)`: one HTTP GET with a 5-second
timeout; status 200 yields the literal success string, any other status or
a caught `RequestException`/`Timeout` yields the literal failure string.
The standalone entry point is `while True: print(fetch_greeting()); sleep(60)`.

`scripts/run_automated_tests.py` loads a list of test cases and a list of
reference entries from JSON fixtures, builds a Python dict keyed by id,
runs `fetch_greeting` on each case's endpoint, compares the result with the
expected string, accumulates a binary 0/1 result list and a detailed-result
list, writes the binary results one per line to a text file, and exits with
status 0 exactly when no case failed.

The network and every exception source are modelled as oracles, so the
embedded functions are pure and total: a caught exception is an explicit
`Except.error` value, never a Lean failure.
-/

/-- Outcome of `requests.get(url, timeout=5)` as `fetch_greeting` observes it:
either a response with a status code, or one of the two caught exception
kinds (`requests.exceptions.RequestException`, `requests.exceptions.Timeout`). -/
inductive NetOutcome where
  | ok (status_code : Nat)
  | requestException
  | timeout
deriving DecidableEq, Repr

/-- `fetch_greeting` from `app.py`, lines 5-12: status 200 maps to the
success literal, any other status and both caught exception kinds map to the
failure literal.  The function is total: no outcome propagates an error. -/
def fetch_greeting : NetOutcome → String
  | .ok status_code =>
      if status_code = 200 then "Hello, CI/CD Pipeline!" else "Failed to fetch greeting"
  | .requestException => "Failed to fetch greeting"
  | .timeout => "Failed to fetch greeting"

/-- Environment oracle for one call of `fetch_greeting` from the runner: a
network outcome that `fetch_greeting` handles, or an exception that escapes
it (one not matched by its `except` clause) and reaches the runner's
per-case `try`. -/
inductive FetchOutcome where
  | net (o : NetOutcome)
  | raise (msg : String)

/-- Calling `fetch_greeting(endpoint)` from `run_tests` under environment
`env`: a returned string, or an escaped exception carrying its text. -/
def app_fetch (env : String → FetchOutcome) (url : String) : Except String String :=
  match env url with
  | .net o => .ok (fetch_greeting o)
  | .raise msg => .error msg

/-- A record of `test_data/input_data.json`. -/
structure TestCase where
  id : Nat
  endpoint : String
  description : String
deriving DecidableEq, Repr

/-- A record of `test_data/reference_data.json`. -/
structure ReferenceEntry where
  id : Nat
  expected_result : String
deriving DecidableEq, Repr

/-- One entry of `detailed_results` as built in `run_tests`. -/
structure DetailedResult where
  id : Nat
  description : String
  endpoint : String
  expected : String
  actual : String
  passed : Bool
  binary_result : Nat
deriving DecidableEq, Repr

/-- Assignment `d[k] = v` on a Python dict modelled as an ordered
association list: an existing key keeps its position and gets the new
value, a new key is appended. -/
def dict_insert : List (Nat × ReferenceEntry) → Nat → ReferenceEntry → List (Nat × ReferenceEntry)
  | [], k, v => [(k, v)]
  | (k₀, v₀) :: rest, k, v =>
      if k₀ = k then (k₀, v) :: rest else (k₀, v₀) :: dict_insert rest k v

/-- Lookup `d[k]` on the association-list dict (`None` for a missing key,
standing for `k not in d`). -/
def dict_get? : List (Nat × ReferenceEntry) → Nat → Option ReferenceEntry
  | [], _ => none
  | (k₀, v₀) :: rest, k => if k₀ = k then some v₀ else dict_get? rest k

/-- `reference_dict = {item['id']: item for item in reference_data}` from
`run_tests`, line 42: the dict comprehension inserts the entries in order,
a later entry with the same id overwriting an earlier one. -/
def reference_dict (reference_data : List ReferenceEntry) : List (Nat × ReferenceEntry) :=
  reference_data.foldl (fun d item => dict_insert d item.id item) []

/-- The body of the `for test_case in test_data` loop of `run_tests`,
lines 49-103, acting on the pair `(results, detailed_results)`:
a missing reference appends `0` to `results` and skips the case
(`continue`); otherwise the fetch either returns a string, which is
compared with the expected result, or raises, which is caught and recorded
as a failed result whose `actual` is the error text. -/
def process_case (fetchF : String → Except String String)
    (refDict : List (Nat × ReferenceEntry))
    (acc : List Nat × List DetailedResult) (test_case : TestCase) :
    List Nat × List DetailedResult :=
  match dict_get? refDict test_case.id with
  | none => (acc.1 ++ [0], acc.2)
  | some reference =>
      match fetchF test_case.endpoint with
      | .ok actual_result =>
          let test_passed : Bool := actual_result == reference.expected_result
          let binary_result : Nat := if test_passed then 1 else 0
          (acc.1 ++ [binary_result],
           acc.2 ++ [⟨test_case.id, test_case.description, test_case.endpoint,
                      reference.expected_result, actual_result, test_passed, binary_result⟩])
      | .error e =>
          (acc.1 ++ [0],
           acc.2 ++ [⟨test_case.id, test_case.description, test_case.endpoint,
                      reference.expected_result, "ERROR: " ++ e, false, 0⟩])

/-- `run_tests` from `scripts/run_automated_tests.py`, lines 32-105, with
the fixture contents and the fetch behaviour passed explicitly: builds the
reference dict once and folds the loop body over the test cases in order,
returning `(results, detailed_results)`. -/
def run_tests (fetchF : String → Except String String)
    (test_data : List TestCase) (reference_data : List ReferenceEntry) :
    List Nat × List DetailedResult :=
  test_data.foldl (process_case fetchF (reference_dict reference_data)) ([], [])

/-- The binary result the loop appends to `results` for one test case. -/
def case_binary (fetchF : String → Except String String)
    (refDict : List (Nat × ReferenceEntry)) (test_case : TestCase) : Nat :=
  match dict_get? refDict test_case.id with
  | none => 0
  | some reference =>
      match fetchF test_case.endpoint with
      | .ok actual_result => if actual_result == reference.expected_result then 1 else 0
      | .error _ => 0

/-- The detailed result the loop appends to `detailed_results` for one test
case: `none` when the case's id has no reference entry, in which case the
loop `continue`s without recording one. -/
def case_detailed (fetchF : String → Except String String)
    (refDict : List (Nat × ReferenceEntry)) (test_case : TestCase) : Option DetailedResult :=
  match dict_get? refDict test_case.id with
  | none => none
  | some reference =>
      match fetchF test_case.endpoint with
      | .ok actual_result =>
          some ⟨test_case.id, test_case.description, test_case.endpoint,
                reference.expected_result, actual_result,
                actual_result == reference.expected_result,
                if (actual_result == reference.expected_result : Bool) then 1 else 0⟩
      | .error e =>
          some ⟨test_case.id, test_case.description, test_case.endpoint,
                reference.expected_result, "ERROR: " ++ e, false, 0⟩

/-- Contents of `test_results/binary_results.txt` as `save_results` writes
them, lines 115-117: `f.write(f"{result}\n")` for each binary result in
order. -/
def save_binary_content (binary_results : List Nat) : String :=
  binary_results.foldl (fun acc result => acc ++ toString result ++ "\n") ""

/-- `total_tests = len(binary_results)` from `main`. -/
def total_tests (binary_results : List Nat) : Nat := binary_results.length

/-- `passed_tests = sum(binary_results)` from `main`. -/
def passed_tests (binary_results : List Nat) : Nat := binary_results.sum

/-- `failed_tests = total_tests - passed_tests` from `main`, over the
integers as in Python. -/
def failed_tests (binary_results : List Nat) : Int :=
  (binary_results.length : Int) - binary_results.sum

/-- `success_rate = (passed_tests / total_tests * 100) if total_tests > 0
else 0` from `main`, with exact rational division in place of floats. -/
def success_rate (binary_results : List Nat) : ℚ :=
  if binary_results.length > 0 then
    (binary_results.sum : ℚ) / (binary_results.length : ℚ) * 100
  else 0

/-- The exit code `main` chooses once the summary is reached:
`sys.exit(0)` when `failed_tests == 0`, else `sys.exit(1)`. -/
def summary_exit (binary_results : List Nat) : Nat :=
  if failed_tests binary_results = 0 then 0 else 1

/-- The whole of `main`'s `try` block, lines 136-168, abstracted over
whether loading, running and saving completed (`Except.ok` with the
produced results) or some exception escaped them (`Except.error`): the
`except` clause exits with status 1. -/
def main_exit : Except String (List Nat × List DetailedResult) → Nat
  | .error _ => 1
  | .ok (binary_results, _) => summary_exit binary_results

/-- The guard of the standalone loop of `app.py`, line 16: `while True`. -/
def standalone_guard : Bool := true

/-- One iteration of the standalone loop, lines 15-18 of `app.py`, as a
step relation on the iteration count: when the guard holds, iteration `n`
fetches the default greeting under the network oracle `net`, prints it, and
proceeds to iteration `n + 1`. -/
inductive StandaloneStep (net : Nat → NetOutcome) : Nat → Nat × String → Prop where
  | step (n : Nat) : standalone_guard = true →
      StandaloneStep net n (n + 1, fetch_greeting (net n))

/-! ## Structural lemmas about the embedded runner -/

/-- One loop iteration appends exactly `case_binary` to `results` and
`case_detailed` (when present) to `detailed_results`. -/
lemma process_case_eq (fetchF : String → Except String String)
    (refDict : List (Nat × ReferenceEntry))
    (acc : List Nat × List DetailedResult) (tc : TestCase) :
    process_case fetchF refDict acc tc
      = (acc.1 ++ [case_binary fetchF refDict tc],
         acc.2 ++ (case_detailed fetchF refDict tc).toList) := by
  unfold process_case case_binary case_detailed
  cases dict_get? refDict tc.id with
  | none => simp
  | some reference =>
      cases fetchF tc.endpoint with
      | ok actual_result => simp
      | error e => simp

/-- Folding the loop body over any suffix of test cases appends, per case
and in order, the binary and the detailed results. -/
lemma foldl_process_case (fetchF : String → Except String String)
    (refDict : List (Nat × ReferenceEntry)) :
    ∀ (td : List TestCase) (acc : List Nat × List DetailedResult),
      td.foldl (process_case fetchF refDict) acc
        = (acc.1 ++ td.map (case_binary fetchF refDict),
           acc.2 ++ (td.map (fun tc => (case_detailed fetchF refDict tc).toList)).flatten)
  | [], acc => by simp
  | tc :: td, acc => by
      rw [List.foldl_cons, process_case_eq, foldl_process_case fetchF refDict td]
      simp

/-- The binary results of a run are the per-case binaries in input order. -/
lemma run_tests_fst (fetchF : String → Except String String)
    (td : List TestCase) (rd : List ReferenceEntry) :
    (run_tests fetchF td rd).1 = td.map (case_binary fetchF (reference_dict rd)) := by
  rw [run_tests, foldl_process_case]
  simp

/-- The detailed results of a run are the per-case records, in input order,
of the cases that produce one. -/
lemma run_tests_snd (fetchF : String → Except String String)
    (td : List TestCase) (rd : List ReferenceEntry) :
    (run_tests fetchF td rd).2
      = (td.map (fun tc => (case_detailed fetchF (reference_dict rd) tc).toList)).flatten := by
  rw [run_tests, foldl_process_case]
  simp

/-- Looking a key up after a dict assignment: the assigned key now maps to
the new value, every other key is untouched. -/
lemma dict_get?_insert (d : List (Nat × ReferenceEntry)) (k : Nat) (v : ReferenceEntry)
    (i : Nat) :
    dict_get? (dict_insert d k v) i = if k = i then some v else dict_get? d i := by
  induction d with
  | nil => simp [dict_insert, dict_get?]
  | cons hd rest ih =>
      obtain ⟨k₀, v₀⟩ := hd
      by_cases h₀ : k₀ = k
      · subst h₀
        simp only [dict_insert, if_pos rfl, dict_get?]
        by_cases hi : k₀ = i <;> simp [hi]
      · simp only [dict_insert, if_neg h₀, dict_get?, ih]
        by_cases hi : k₀ = i
        · by_cases hk : k = i
          · exact absurd (hi.trans hk.symm) h₀
          · simp [hi, hk]
        · simp [hi]

/-- The dict built by the comprehension maps each id to the last reference
entry carrying it. -/
lemma reference_dict_get (rd : List ReferenceEntry) (i : Nat) :
    dict_get? (reference_dict rd) i = (rd.filter (fun r => r.id == i)).getLast? := by
  induction rd using List.reverseRecOn with
  | nil => simp [reference_dict, dict_get?]
  | append_singleton rd x ih =>
      have hfold : reference_dict (rd ++ [x])
          = dict_insert (reference_dict rd) x.id x := by
        simp [reference_dict, List.foldl_append]
      rw [hfold, dict_get?_insert, List.filter_append, ih]
      by_cases hx : x.id = i
      · simp [hx, List.getLast?_concat]
      · have : (x.id == i) = false := by simp [hx]
        simp [hx, this]

/-- An id carried by no reference entry is missing from the dict. -/
lemma dict_get?_none_of_absent (rd : List ReferenceEntry) (i : Nat)
    (habsent : ∀ r ∈ rd, r.id ≠ i) :
    dict_get? (reference_dict rd) i = none := by
  rw [reference_dict_get]
  have : rd.filter (fun r => r.id == i) = [] := by
    rw [List.filter_eq_nil_iff]
    intro r hr
    simpa using habsent r hr
  simp [this]

/-- Every per-case binary result is 0 or 1. -/
lemma case_binary_zero_or_one (fetchF : String → Except String String)
    (refDict : List (Nat × ReferenceEntry)) (tc : TestCase) :
    case_binary fetchF refDict tc = 0 ∨ case_binary fetchF refDict tc = 1 := by
  unfold case_binary
  cases dict_get? refDict tc.id with
  | none => exact Or.inl rfl
  | some reference =>
      cases fetchF tc.endpoint with
      | ok actual_result =>
          by_cases h : (actual_result == reference.expected_result : Bool) <;> simp [h]
      | error e => exact Or.inl rfl

/-- Over a list of 0/1 entries, the sum reaches the length exactly when
every entry is 1. -/
lemma sum_eq_length_iff (bs : List Nat) (hb : ∀ b ∈ bs, b = 0 ∨ b = 1) :
    bs.sum = bs.length ↔ ∀ b ∈ bs, b = 1 := by
  induction bs with
  | nil => simp
  | cons b bs ih =>
      have hb0 : b = 0 ∨ b = 1 := hb b (List.mem_cons_self b bs)
      have hrest : ∀ x ∈ bs, x = 0 ∨ x = 1 := fun x hx => hb x (List.mem_cons_of_mem b hx)
      have hsum_le : bs.sum ≤ bs.length := by
        clear hb0 ih hb
        induction bs with
        | nil => simp
        | cons c cs ihc =>
            have hc : c = 0 ∨ c = 1 := hrest c (List.mem_cons_self c cs)
            have := ihc (fun x hx => hrest x (List.mem_cons_of_mem c hx))
            rcases hc with hc | hc <;> subst hc <;> simp <;> omega
      rw [List.sum_cons, List.length_cons]
      constructor
      · intro h x hx
        rcases List.mem_cons.mp hx with hx | hx
        · subst hx
          rcases hb0 with h0 | h0
          · exfalso; omega
          · exact h0
        · have : bs.sum = bs.length := by
            rcases hb0 with h0 | h0 <;> subst h0 <;> omega
          exact ((ih hrest).mp this) x hx
      · intro h
        have hb1 : b = 1 := h b (List.mem_cons_self b bs)
        have : bs.sum = bs.length :=
          (ih hrest).mpr (fun x hx => h x (List.mem_cons_of_mem b hx))
        omega

/-- The written file is the concatenation, in order, of one line per binary
result, each line the decimal digit followed by a newline. -/
lemma save_binary_content_eq (bs : List Nat) :
    save_binary_content bs = String.join (bs.map (fun r => toString r ++ "\n")) := by
  have key : ∀ (l : List Nat) (acc : String),
      l.foldl (fun a r => a ++ toString r ++ "\n") acc
        = (l.map (fun r => toString r ++ "\n")).foldl (fun r s => r ++ s) acc := by
    intro l
    induction l with
    | nil => intro acc; rfl
    | cons r l ih =>
        intro acc
        rw [List.map_cons, List.foldl_cons, List.foldl_cons, ih, String.append_assoc]
  exact key bs ""

/-- Every binary result of a run is 0 or 1. -/
lemma run_tests_binary_zero_or_one (fetchF : String → Except String String)
    (td : List TestCase) (rd : List ReferenceEntry) :
    ∀ b ∈ (run_tests fetchF td rd).1, b = 0 ∨ b = 1 := by
  rw [run_tests_fst]
  intro b hb
  obtain ⟨tc, _, rfl⟩ := List.mem_map.mp hb
  exact case_binary_zero_or_one fetchF (reference_dict rd) tc

/-- `main_exit` on a completed run reads the binary results. -/
lemma main_exit_ok (p : List Nat × List DetailedResult) :
    main_exit (Except.ok p) = summary_exit p.1 := rfl

/-- The summary exits with 0 exactly when every (0/1) binary result is 1. -/
lemma summary_exit_eq_zero_iff (bs : List Nat) (hb : ∀ b ∈ bs, b = 0 ∨ b = 1) :
    summary_exit bs = 0 ↔ ∀ b ∈ bs, b = 1 := by
  rw [summary_exit]
  by_cases h : failed_tests bs = 0
  · rw [if_pos h]
    have hlen : bs.sum = bs.length := by
      unfold failed_tests at h
      omega
    exact iff_of_true rfl ((sum_eq_length_iff bs hb).mp hlen)
  · rw [if_neg h]
    have hlen : bs.sum ≠ bs.length := by
      unfold failed_tests at h
      omega
    constructor
    · intro h10
      exact absurd h10 one_ne_zero
    · intro hall
      exact absurd ((sum_eq_length_iff bs hb).mpr hall) hlen

/-- The summary exits with 1 exactly when some (0/1) binary result is not 1. -/
lemma summary_exit_eq_one_iff (bs : List Nat) (hb : ∀ b ∈ bs, b = 0 ∨ b = 1) :
    summary_exit bs = 1 ↔ ¬ ∀ b ∈ bs, b = 1 := by
  have h0 := summary_exit_eq_zero_iff bs hb
  have : summary_exit bs = 0 ∨ summary_exit bs = 1 := by
    unfold summary_exit
    by_cases h : failed_tests bs = 0 <;> simp [h]
  constructor
  · intro h1 hall
    have := h0.mpr hall
    omega
  · intro hnall
    rcases this with h | h
    · exact absurd (h0.mp h) hnall
    · exact h

/-! ## The claims -/

/-- C1: `fetch_greeting` returns the literal string "Hello, CI/CD Pipeline!"
exactly when the GET response has status code 200, and returns the literal
string "Failed to fetch greeting" for any other status code and for both
caught failure kinds (`RequestException`, `Timeout`); the embedded function
is total on every network outcome, so such failures are never propagated as
exceptions. -/
theorem fetch_greeting_status_spec (o : NetOutcome) :
    (fetch_greeting o = "Hello, CI/CD Pipeline!" ↔ o = NetOutcome.ok 200) ∧
    (fetch_greeting o = "Failed to fetch greeting" ↔ o ≠ NetOutcome.ok 200) := by
  have hne : "Hello, CI/CD Pipeline!" ≠ "Failed to fetch greeting" := by decide
  cases o with
  | ok s =>
      by_cases hs : s = 200
      · subst hs
        simp [fetch_greeting, hne]
      · simp [fetch_greeting, hs, hne, Ne.symm hne]
  | requestException => simp [fetch_greeting, Ne.symm hne]
  | timeout => simp [fetch_greeting, Ne.symm hne]

/-- C2: for every test case whose id has a matching reference entry and
whose fetch returns a string, `run_tests` records a detailed result whose
`binary_result` is 1 exactly when the returned string equals the matching
entry's `expected_result`, and 0 exactly otherwise. -/
theorem run_tests_binary_result_iff (fetchF : String → Except String String)
    (td : List TestCase) (rd : List ReferenceEntry)
    (tc : TestCase) (reference : ReferenceEntry) (actual_result : String)
    (htc : tc ∈ td)
    (href : dict_get? (reference_dict rd) tc.id = some reference)
    (hfetch : fetchF tc.endpoint = Except.ok actual_result) :
    ∃ d : DetailedResult,
      case_detailed fetchF (reference_dict rd) tc = some d ∧
      d ∈ (run_tests fetchF td rd).2 ∧
      d.actual = actual_result ∧
      d.expected = reference.expected_result ∧
      (d.binary_result = 1 ↔ actual_result = reference.expected_result) ∧
      (d.binary_result = 0 ↔ actual_result ≠ reference.expected_result) := by
  refine ⟨⟨tc.id, tc.description, tc.endpoint, reference.expected_result, actual_result,
           actual_result == reference.expected_result,
           if (actual_result == reference.expected_result : Bool) then 1 else 0⟩, ?_, ?_, ?_, ?_, ?_, ?_⟩
  · unfold case_detailed
    rw [href, hfetch]
  · rw [run_tests_snd]
    rw [List.mem_flatten]
    refine ⟨(case_detailed fetchF (reference_dict rd) tc).toList, List.mem_map.mpr ⟨tc, htc, rfl⟩, ?_⟩
    unfold case_detailed
    rw [href, hfetch]
    simp
  · rfl
  · rfl
  · by_cases h : actual_result = reference.expected_result <;> simp [h]
  · by_cases h : actual_result = reference.expected_result <;> simp [h]

/-- Witness for C2 at a concrete run: one case, its reference present, the
fetch returning the success greeting from a 200 response. -/
theorem run_tests_binary_result_iff_witness :
    ∃ d : DetailedResult,
      case_detailed (app_fetch (fun _ => FetchOutcome.net (NetOutcome.ok 200)))
          (reference_dict [⟨1, "Hello, CI/CD Pipeline!"⟩])
          ⟨1, "https://api.github.com", "basic"⟩ = some d ∧
      d ∈ (run_tests (app_fetch (fun _ => FetchOutcome.net (NetOutcome.ok 200)))
            [⟨1, "https://api.github.com", "basic"⟩]
            [⟨1, "Hello, CI/CD Pipeline!"⟩]).2 ∧
      d.actual = "Hello, CI/CD Pipeline!" ∧
      d.expected = "Hello, CI/CD Pipeline!" ∧
      (d.binary_result = 1 ↔ "Hello, CI/CD Pipeline!" = "Hello, CI/CD Pipeline!") ∧
      (d.binary_result = 0 ↔ "Hello, CI/CD Pipeline!" ≠ "Hello, CI/CD Pipeline!") :=
  run_tests_binary_result_iff
    (app_fetch (fun _ => FetchOutcome.net (NetOutcome.ok 200)))
    [⟨1, "https://api.github.com", "basic"⟩]
    [⟨1, "Hello, CI/CD Pipeline!"⟩]
    ⟨1, "https://api.github.com", "basic"⟩
    ⟨1, "Hello, CI/CD Pipeline!"⟩
    "Hello, CI/CD Pipeline!"
    (List.mem_singleton.mpr rfl)
    rfl
    rfl

/-- C3: on a run that reaches the summary, the process exits with status 0
exactly when every binary result equals 1, with status 1 exactly when some
case failed, and any exception escaping loading, running or saving makes it
exit with status 1. -/
theorem main_exit_code_spec (fetchF : String → Except String String)
    (td : List TestCase) (rd : List ReferenceEntry) :
    (main_exit (Except.ok (run_tests fetchF td rd)) = 0 ↔
        ∀ b ∈ (run_tests fetchF td rd).1, b = 1) ∧
    (main_exit (Except.ok (run_tests fetchF td rd)) = 1 ↔
        ¬ ∀ b ∈ (run_tests fetchF td rd).1, b = 1) ∧
    (∀ msg : String, main_exit (Except.error msg) = 1) := by
  have hb := run_tests_binary_zero_or_one fetchF td rd
  refine ⟨?_, ?_, fun msg => rfl⟩
  · rw [main_exit_ok]
    exact summary_exit_eq_zero_iff _ hb
  · rw [main_exit_ok]
    exact summary_exit_eq_one_iff _ hb

/-- A detailed result exists for a case exactly when its id is in the dict. -/
lemma case_detailed_isSome (fetchF : String → Except String String)
    (refDict : List (Nat × ReferenceEntry)) (tc : TestCase) :
    (case_detailed fetchF refDict tc).isSome = (dict_get? refDict tc.id).isSome := by
  unfold case_detailed
  cases dict_get? refDict tc.id with
  | none => rfl
  | some reference =>
      cases fetchF tc.endpoint with
      | ok actual_result => rfl
      | error e => rfl

/-- C4: the binary results file written for a run of N test cases holds
exactly N lines, each line "0" or "1", the whole file being those lines
each followed by a newline, and the i-th line renders the binary result of
the i-th test case in input order. -/
theorem binary_results_file_spec (fetchF : String → Except String String)
    (td : List TestCase) (rd : List ReferenceEntry) :
    save_binary_content (run_tests fetchF td rd).1
      = String.join (((run_tests fetchF td rd).1.map (fun r => toString r)).map
          (fun line => line ++ "\n")) ∧
    ((run_tests fetchF td rd).1.map (fun r => toString r)).length = td.length ∧
    (∀ line ∈ (run_tests fetchF td rd).1.map (fun r => toString r),
      line = "0" ∨ line = "1") ∧
    (∀ i : Nat, ((run_tests fetchF td rd).1.map (fun r => toString r))[i]?
        = (td[i]?).map (fun tc => toString (case_binary fetchF (reference_dict rd) tc))) := by
  refine ⟨?_, ?_, ?_, ?_⟩
  · rw [save_binary_content_eq, List.map_map]
    rfl
  · rw [run_tests_fst]
    simp
  · intro line hline
    obtain ⟨b, hbmem, rfl⟩ := List.mem_map.mp hline
    rcases run_tests_binary_zero_or_one fetchF td rd b hbmem with h | h <;> subst h
    · left; rfl
    · right; rfl
  · intro i
    rw [run_tests_fst, List.map_map, List.getElem?_map]
    rfl

/-- C5: a test case whose id no reference entry carries gets binary result
0 appended in place, the preceding and remaining cases are still processed
in order, and no detailed result is recorded for it; nothing raises (the
embedded runner is total). -/
theorem missing_reference_spec (fetchF : String → Except String String)
    (rd : List ReferenceEntry) (tc : TestCase) (td₁ td₂ : List TestCase)
    (habsent : ∀ r ∈ rd, r.id ≠ tc.id) :
    (run_tests fetchF (td₁ ++ tc :: td₂) rd).1
      = td₁.map (case_binary fetchF (reference_dict rd))
        ++ 0 :: td₂.map (case_binary fetchF (reference_dict rd)) ∧
    case_detailed fetchF (reference_dict rd) tc = none := by
  have hnone := dict_get?_none_of_absent rd tc.id habsent
  have h0 : case_binary fetchF (reference_dict rd) tc = 0 := by
    unfold case_binary
    rw [hnone]
  constructor
  · rw [run_tests_fst, List.map_append, List.map_cons, h0]
  · unfold case_detailed
    rw [hnone]

/-- Witness for C5 at a concrete run: one case with id 2, the only
reference entry carrying id 1. -/
theorem missing_reference_spec_witness :
    (run_tests (app_fetch (fun _ => FetchOutcome.net NetOutcome.timeout))
        ([] ++ (⟨2, "https://api.github.com", "basic"⟩ : TestCase) :: [])
        [⟨1, "Hello, CI/CD Pipeline!"⟩]).1
      = ([] : List TestCase).map
          (case_binary (app_fetch (fun _ => FetchOutcome.net NetOutcome.timeout))
            (reference_dict [⟨1, "Hello, CI/CD Pipeline!"⟩]))
        ++ 0 :: ([] : List TestCase).map
          (case_binary (app_fetch (fun _ => FetchOutcome.net NetOutcome.timeout))
            (reference_dict [⟨1, "Hello, CI/CD Pipeline!"⟩])) ∧
    case_detailed (app_fetch (fun _ => FetchOutcome.net NetOutcome.timeout))
        (reference_dict [⟨1, "Hello, CI/CD Pipeline!"⟩])
        ⟨2, "https://api.github.com", "basic"⟩ = none :=
  missing_reference_spec (app_fetch (fun _ => FetchOutcome.net NetOutcome.timeout))
    [⟨1, "Hello, CI/CD Pipeline!"⟩] ⟨2, "https://api.github.com", "basic"⟩ [] []
    (by decide)

/-- C6 counterexample: with one test case whose id has no reference entry,
the run records one binary result but no detailed result, so the detailed
results list is shorter than the input test-case array. -/
theorem detailed_results_length_counterexample :
    ¬ ((run_tests (app_fetch (fun _ => FetchOutcome.net (NetOutcome.ok 200)))
          [⟨1, "https://api.github.com", "basic"⟩] ([] : List ReferenceEntry)).2.length
        = [(⟨1, "https://api.github.com", "basic"⟩ : TestCase)].length) := by
  decide

/-- C6 amended: exactly one detailed result is recorded per test case whose
id has a matching reference entry, so the detailed results list has the
length of the input array's sublist of cases with a matching entry (a case
with a missing reference contributes a binary 0 but no detailed record). -/
theorem detailed_results_length_spec (fetchF : String → Except String String)
    (td : List TestCase) (rd : List ReferenceEntry) :
    (run_tests fetchF td rd).2.length
      = (td.filter (fun tc => (dict_get? (reference_dict rd) tc.id).isSome)).length := by
  rw [run_tests_snd]
  induction td with
  | nil => rfl
  | cons tc td ih =>
      have hiso := case_detailed_isSome fetchF (reference_dict rd) tc
      rw [List.map_cons, List.flatten_cons, List.length_append, ih, List.filter_cons]
      cases hcd : case_detailed fetchF (reference_dict rd) tc with
      | none =>
          rw [hcd] at hiso
          rw [if_neg (by rw [← hiso]; simp)]
          simp
      | some d =>
          rw [hcd] at hiso
          rw [if_pos (by rw [← hiso]; rfl)]
          simp [Nat.add_comm]

/-- C7: an exception escaping the fetch of a single case is caught: the
case is recorded as failed with the error text as its `actual` value and
binary result 0, while the cases before and after it are processed
unchanged, in order. -/
theorem exception_during_case_spec (fetchF : String → Except String String)
    (rd : List ReferenceEntry) (tc : TestCase) (reference : ReferenceEntry)
    (msg : String) (td₁ td₂ : List TestCase)
    (href : dict_get? (reference_dict rd) tc.id = some reference)
    (hexn : fetchF tc.endpoint = Except.error msg) :
    case_detailed fetchF (reference_dict rd) tc
      = some ⟨tc.id, tc.description, tc.endpoint, reference.expected_result,
              "ERROR: " ++ msg, false, 0⟩ ∧
    (run_tests fetchF (td₁ ++ tc :: td₂) rd).1
      = td₁.map (case_binary fetchF (reference_dict rd))
        ++ 0 :: td₂.map (case_binary fetchF (reference_dict rd)) ∧
    (run_tests fetchF (td₁ ++ tc :: td₂) rd).2
      = (td₁.map (fun t => (case_detailed fetchF (reference_dict rd) t).toList)).flatten
        ++ ⟨tc.id, tc.description, tc.endpoint, reference.expected_result,
            "ERROR: " ++ msg, false, 0⟩
          :: (td₂.map (fun t => (case_detailed fetchF (reference_dict rd) t).toList)).flatten := by
  have hcd : case_detailed fetchF (reference_dict rd) tc
      = some ⟨tc.id, tc.description, tc.endpoint, reference.expected_result,
              "ERROR: " ++ msg, false, 0⟩ := by
    unfold case_detailed
    rw [href, hexn]
  have hcb : case_binary fetchF (reference_dict rd) tc = 0 := by
    unfold case_binary
    rw [href, hexn]
  refine ⟨hcd, ?_, ?_⟩
  · rw [run_tests_fst, List.map_append, List.map_cons, hcb]
  · rw [run_tests_snd, List.map_append, List.map_cons, hcd, List.flatten_append,
        List.flatten_cons]
    simp

/-- Witness for C7 at a concrete run: a single case whose fetch raises
"boom", its reference entry present. -/
theorem exception_during_case_spec_witness :
    case_detailed (app_fetch (fun _ => FetchOutcome.raise "boom"))
        (reference_dict [⟨1, "Hello, CI/CD Pipeline!"⟩])
        ⟨1, "https://api.github.com", "basic"⟩
      = some ⟨1, "basic", "https://api.github.com", "Hello, CI/CD Pipeline!",
              "ERROR: " ++ "boom", false, 0⟩ ∧
    (run_tests (app_fetch (fun _ => FetchOutcome.raise "boom"))
        ([] ++ (⟨1, "https://api.github.com", "basic"⟩ : TestCase) :: [])
        [⟨1, "Hello, CI/CD Pipeline!"⟩]).1
      = ([] : List TestCase).map
          (case_binary (app_fetch (fun _ => FetchOutcome.raise "boom"))
            (reference_dict [⟨1, "Hello, CI/CD Pipeline!"⟩]))
        ++ 0 :: ([] : List TestCase).map
          (case_binary (app_fetch (fun _ => FetchOutcome.raise "boom"))
            (reference_dict [⟨1, "Hello, CI/CD Pipeline!"⟩])) ∧
    (run_tests (app_fetch (fun _ => FetchOutcome.raise "boom"))
        ([] ++ (⟨1, "https://api.github.com", "basic"⟩ : TestCase) :: [])
        [⟨1, "Hello, CI/CD Pipeline!"⟩]).2
      = (([] : List TestCase).map
          (fun t => (case_detailed (app_fetch (fun _ => FetchOutcome.raise "boom"))
            (reference_dict [⟨1, "Hello, CI/CD Pipeline!"⟩]) t).toList)).flatten
        ++ ⟨1, "basic", "https://api.github.com", "Hello, CI/CD Pipeline!",
            "ERROR: " ++ "boom", false, 0⟩
          :: (([] : List TestCase).map
              (fun t => (case_detailed (app_fetch (fun _ => FetchOutcome.raise "boom"))
                (reference_dict [⟨1, "Hello, CI/CD Pipeline!"⟩]) t).toList)).flatten :=
  exception_during_case_spec (app_fetch (fun _ => FetchOutcome.raise "boom"))
    [⟨1, "Hello, CI/CD Pipeline!"⟩] ⟨1, "https://api.github.com", "basic"⟩
    ⟨1, "Hello, CI/CD Pipeline!"⟩ "boom" [] [] rfl rfl

/-- C8: the standalone loop's guard is the constant `True`; from every
iteration count `n` the loop takes another fetch-and-print step, to
iteration `n + 1` printing the fetched greeting, and that step is the only
one: the program never terminates of its own accord. -/
theorem standalone_loop_no_exit (net : Nat → NetOutcome) (n : Nat) :
    standalone_guard = true ∧
    StandaloneStep net n (n + 1, fetch_greeting (net n)) ∧
    ∀ p : Nat × String, StandaloneStep net n p → p = (n + 1, fetch_greeting (net n)) :=
  ⟨rfl, StandaloneStep.step n rfl, fun p hp => by cases hp; rfl⟩

/-- C9: the dict built from the reference array maps each id to the entry
occurring last with that id, so a test case with a duplicated id is
compared against the last matching reference entry's `expected_result`. -/
theorem reference_dict_last_entry_wins (rd : List ReferenceEntry) (i : Nat) :
    dict_get? (reference_dict rd) i = (rd.filter (fun r => r.id == i)).getLast? ∧
    ∀ (fetchF : String → Except String String) (tc : TestCase)
      (reference : ReferenceEntry) (actual_result : String),
      tc.id = i →
      (rd.filter (fun r => r.id == i)).getLast? = some reference →
      fetchF tc.endpoint = Except.ok actual_result →
      ∃ d : DetailedResult,
        case_detailed fetchF (reference_dict rd) tc = some d ∧
        d.expected = reference.expected_result ∧
        d.binary_result
          = (if (actual_result == reference.expected_result : Bool) then 1 else 0) := by
  refine ⟨reference_dict_get rd i, ?_⟩
  intro fetchF tc reference actual_result hid hlast hfetch
  have href : dict_get? (reference_dict rd) tc.id = some reference := by
    rw [hid, reference_dict_get]
    exact hlast
  refine ⟨⟨tc.id, tc.description, tc.endpoint, reference.expected_result, actual_result,
           actual_result == reference.expected_result,
           if (actual_result == reference.expected_result : Bool) then 1 else 0⟩,
          ?_, rfl, rfl⟩
  unfold case_detailed
  rw [href, hfetch]

/-- C10: on an empty test-case array the run completes with zero passed and
zero failed tests, the reported success rate is 0, and the process exits
with status 0. -/
theorem empty_test_data_spec (fetchF : String → Except String String)
    (rd : List ReferenceEntry) :
    run_tests fetchF [] rd = ([], []) ∧
    total_tests [] = 0 ∧
    passed_tests [] = 0 ∧
    failed_tests [] = 0 ∧
    success_rate [] = 0 ∧
    summary_exit [] = 0 ∧
    main_exit (Except.ok (run_tests fetchF [] rd)) = 0 := by
  refine ⟨rfl, rfl, rfl, rfl, ?_, rfl, rfl⟩
  simp [success_rate]
